import Mathlib

/-!
Verification development for the `DataParser` class of the kyc repository
(`src/data_parser.py`).  Python strings are modelled as `List Char`;
Python dicts (the extracted records) as association lists with
replace-or-append assignment; a compiled regex applied to a text is
modelled as an abstract `Rule`, a function from the text to one of
three outcomes (error while matching, no match, or the raw text of
capture group 1), exactly the three outcomes the `try`/`except` block of
`DataParser._extract_field` distinguishes.  Where a theorem has to
evaluate a concrete regex from the pattern catalog, that regex is
translated into a small executable backtracking matcher (`RI` below).
-/

/-- Python strings, modelled as lists of characters. -/
abbrev Str := List Char

/-- Turn a Lean string literal into the `Str` model. -/
def chars (s : String) : Str := s.toList

/-- Whitespace as recognised by Python `str.strip` and the `\s` class
(ASCII range, which is all that occurs in the parser's data). -/
def pyWS (c : Char) : Bool :=
  c = ' ' || c = '\t' || c = '\n' || c = '\r' || c = '\x0b' || c = '\x0c'

/-- Remove leading whitespace, as in Python `str.lstrip`. -/
def trimLeft (s : Str) : Str := s.dropWhile pyWS

/-- Remove trailing whitespace, as in Python `str.rstrip`. -/
def trimRight (s : Str) : Str := (s.reverse.dropWhile pyWS).reverse

/-- Python `str.strip`: remove leading and trailing whitespace. -/
def pyStrip (s : Str) : Str := trimLeft (trimRight s)

/-- The placeholder token: a single dash. -/
def dash : Str := ['-']

/-- Python `str.lower`, character by character. -/
def lowerStr (s : Str) : Str := s.map Char.toLower

/-- Outcome of applying one compiled pattern to a text, mirroring the
three control paths in the loop body of `DataParser._extract_field`:
the `re.search`/`match.group(1)` chain raises, finds nothing, or
produces the raw (untrimmed) text of capture group 1. -/
inductive RuleResult : Type where
  | err : RuleResult
  | noMatch : RuleResult
  | found : Str → RuleResult
deriving DecidableEq

/-- A single extraction rule: the behaviour of one compiled regex
(`re.search(pattern, text, re.IGNORECASE | re.MULTILINE)` followed by
`match.group(1)`) on a given text. -/
abbrev Rule := Str → RuleResult

/-- `DataParser._extract_field` (src/data_parser.py lines 834-855):
try the rules in order; on a match, trim the captured group and return
it unless it is empty or the single-dash placeholder; on an error or a
no-match (or a rejected value) continue with the next rule; return
nothing when the list is exhausted. -/
def extractField (text : Str) : List Rule → Option Str
  | [] => none
  | r :: rest =>
    match r text with
    | RuleResult.found s =>
      let v := pyStrip s
      if v ≠ [] ∧ v ≠ dash then some v else extractField text rest
    | _ => extractField text rest

/-- What a single rule contributes in `extractField`: the trimmed
capture, provided it is non-empty and not the placeholder. -/
def ruleHit (r : Rule) (text : Str) : Option Str :=
  match r text with
  | RuleResult.found s =>
    let v := pyStrip s
    if v ≠ [] ∧ v ≠ dash then some v else none
  | _ => none

/-- Extracted records: Python dicts keyed by field name, modelled as
association lists with replace-or-append assignment. -/
abbrev Record := List (Str × Str)

/-- `d[k] = v` on a dict: replace the value at `k` if present,
otherwise append the new pair. -/
def setk (d : Record) (k v : Str) : Record :=
  match d with
  | [] => [(k, v)]
  | (k₀, v₀) :: t => if k₀ = k then (k, v) :: t else (k₀, v₀) :: setk t k v

/-- `d.get(k)` on a dict. -/
def recLookup (k : Str) : Record → Option Str
  | [] => none
  | (k₀, v) :: t => if k₀ = k then some v else recLookup k t

/-- `k in d` on a dict. -/
def recHas (k : Str) (d : Record) : Bool := (recLookup k d).isSome

/-- `del d[k]` on a dict. -/
def recErase (k : Str) : Record → Record
  | [] => []
  | (k₀, v) :: t => if k₀ = k then t else (k₀, v) :: recErase k t

/-- `d.update(d₂)` on dicts. -/
def updateRec (d d₂ : Record) : Record :=
  d₂.foldl (fun a kv => setk a kv.1 kv.2) d

/-- Python `needle in s` on strings: `needle` occurs contiguously in `s`. -/
def isSubstrOf (needle : Str) : Str → Bool
  | [] => needle.isPrefixOf []
  | c :: t => needle.isPrefixOf (c :: t) || isSubstrOf needle t

/-- Python `text.split(chr(10))`: split into lines at newline characters
(an empty text yields one empty line, as in Python). -/
def splitNL : Str → List Str
  | [] => [[]]
  | c :: t =>
    let r := splitNL t
    if c = '\n' then [] :: r
    else (c :: r.headD []) :: r.tail

/-- Newline-join a list of lines, as in Python `str.join`. -/
def joinNL : List Str → Str
  | [] => []
  | [l] => l
  | l :: ls => l ++ '\n' :: joinNL ls

/-- `line.lower().strip()` from `DataParser._extract_address_info`. -/
def lineLower (l : Str) : Str := pyStrip (lowerStr l)

/-- Keywords that close the current-address capture
(src/data_parser.py line 573). -/
def curStopKws : List Str :=
  [chars "permanent", chars "temporary", chars "family", chars "bank", chars "occupation"]

/-- Keywords that close the permanent-address capture
(src/data_parser.py line 578). -/
def permStopKws : List Str :=
  [chars "temporary", chars "family", chars "bank", chars "occupation"]

/-- State of the section-splitting loop of
`DataParser._extract_address_info`: the two flags and the two line
buffers. -/
structure SegSt : Type where
  inCur : Bool
  inPerm : Bool
  cur : List Str
  perm : List Str
deriving DecidableEq

/-- One iteration of the line loop of `DataParser._extract_address_info`
(src/data_parser.py lines 552-579). -/
def segStep (st : SegSt) (line : Str) : SegSt :=
  let ll := lineLower line
  if isSubstrOf (chars "current address") ll && !(isSubstrOf (chars "permanent") ll) then
    { inCur := true, inPerm := false, cur := st.cur ++ [line], perm := st.perm }
  else if isSubstrOf (chars "permanent address") ll then
    { inCur := false, inPerm := true, cur := st.cur, perm := st.perm ++ [line] }
  else if st.inCur && !st.inPerm then
    { st with cur := st.cur ++ [line],
              inCur := !(curStopKws.any fun kw => isSubstrOf kw ll) }
  else if st.inPerm && !st.inCur then
    { st with perm := st.perm ++ [line],
              inPerm := !(permStopKws.any fun kw => isSubstrOf kw ll) }
  else st

/-- The section segmenter of `DataParser._extract_address_info`
(src/data_parser.py lines 544-582): run the line loop over the lines
of the text and return the current-address and permanent-address line
buffers. -/
def addressSections (ls : List Str) : List Str × List Str :=
  let fin := ls.foldl segStep ⟨false, false, [], []⟩
  (fin.cur, fin.perm)

/-- `current_text` of `DataParser._extract_address_info` (line 581). -/
def currentView (t : Str) : Str := joinNL (addressSections (splitNL t)).1

/-- `permanent_text` of `DataParser._extract_address_info` (line 582). -/
def permanentView (t : Str) : Str := joinNL (addressSections (splitNL t)).2

/-- The per-field lookup of `DataParser._extract_address_info`
(lines 585-589 and 594-598): extract against the section view and, if
that produced nothing, fall back to the full document text. -/
def addrFieldValue (secText fullText : Str) (rs : List Rule) : Option Str :=
  match extractField secText rs with
  | some v => some v
  | none => extractField fullText rs

/-- `s.split(needle)[0]` in Python: the prefix of `s` before the first
occurrence of `needle` (all of `s` when `needle` does not occur). -/
def beforeFirst (needle : Str) : Str → Str
  | [] => []
  | c :: t => if needle.isPrefixOf (c :: t) then [] else c :: beforeFirst needle t

/-- A colon or whitespace character, the `[:\s]` class. -/
def colonWsChar (c : Char) : Bool := c = ':' || pyWS c

/-- The two `re.sub` calls at src/data_parser.py lines 626-627: strip
trailing then leading runs of colons and whitespace. -/
def trimColonWs (s : Str) : Str :=
  ((s.reverse.dropWhile colonWsChar).reverse).dropWhile colonWsChar

/-- The permanent-address cleanup of `DataParser._extract_address_info`
(lines 600-627): truncate leaked next-label words for the four
hierarchical fields, then strip residual colons and whitespace. -/
def permClean (f : Str) (v : Str) : Str :=
  let cv := pyStrip v
  let cv :=
    if f = chars "country" then
      let cv := if isSubstrOf (chars "Province") cv then pyStrip (beforeFirst (chars "Province") cv) else cv
      if isSubstrOf (chars "District") cv then pyStrip (beforeFirst (chars "District") cv) else cv
    else if f = chars "province" then
      let cv := if isSubstrOf (chars "District") cv then pyStrip (beforeFirst (chars "District") cv) else cv
      if isSubstrOf (chars "Municipality") cv then pyStrip (beforeFirst (chars "Municipality") cv) else cv
    else if f = chars "district" then
      let cv := if isSubstrOf (chars "Municipality") cv then pyStrip (beforeFirst (chars "Municipality") cv) else cv
      if isSubstrOf (chars "Ward") cv then pyStrip (beforeFirst (chars "Ward") cv) else cv
    else if f = chars "municipality" then
      let cv := if isSubstrOf (chars "Ward") cv then pyStrip (beforeFirst (chars "Ward") cv) else cv
      if isSubstrOf (chars "Tole") cv then pyStrip (beforeFirst (chars "Tole") cv) else cv
    else cv
  trimColonWs cv

/-- The current-address loop of `DataParser._extract_address_info`
(lines 584-591), parameterised by the rule list of each sub-field. -/
def curLoop (t : Str) : List (Str × List Rule) → Record → Record
  | [], acc => acc
  | (f, rs) :: rest, acc =>
    let acc₂ :=
      match addrFieldValue (currentView t) t rs with
      | some v =>
        if v ≠ [] ∧ pyStrip v ≠ [] ∧ pyStrip v ≠ dash then
          setk acc (chars "current_" ++ f) (pyStrip v)
        else acc
      | none => acc
    curLoop t rest acc₂

/-- The permanent-address loop of `DataParser._extract_address_info`
(lines 593-630), parameterised by the rule list of each sub-field. -/
def permLoop (t : Str) : List (Str × List Rule) → Record → Record
  | [], acc => acc
  | (f, rs) :: rest, acc =>
    let acc₂ :=
      match addrFieldValue (permanentView t) t rs with
      | some v =>
        if v ≠ [] ∧ pyStrip v ≠ [] ∧ pyStrip v ≠ dash then
          let cv := permClean f v
          if cv ≠ [] ∧ cv ≠ dash then setk acc (chars "permanent_" ++ f) cv else acc
        else acc
      | none => acc
    permLoop t rest acc₂

/-- `DataParser._extract_address_info` (src/data_parser.py lines
540-632), parameterised by the current-address and permanent-address
rule books. -/
def extractAddressInfo (curRB permRB : List (Str × List Rule)) (t : Str) : Record :=
  permLoop t permRB (curLoop t curRB [])

/-- The field loop of `DataParser._extract_temporary_address_info`
(src/data_parser.py lines 799-812): the guard checks the extracted
value, but after the country value is truncated at the word
`Province` the truncated value is stored without being re-checked. -/
def tempLoop (t : Str) : List (Str × List Rule) → Record → Record
  | [], acc => acc
  | (f, rs) :: rest, acc =>
    let acc₂ :=
      match extractField t rs with
      | some v =>
        if v ≠ [] ∧ pyStrip v ≠ [] ∧ pyStrip v ≠ dash then
          let cv := pyStrip v
          let cv :=
            if f = chars "country" ∧ isSubstrOf (chars "Province") cv then
              pyStrip (beforeFirst (chars "Province") cv)
            else cv
          setk acc (chars "temporary_" ++ f) cv
        else acc
      | none => acc
    tempLoop t rest acc₂

/-- `DataParser._extract_temporary_address_info`, parameterised by the
temporary-address rule book. -/
def extractTemporaryAddressInfo (rb : List (Str × List Rule)) (t : Str) : Record :=
  tempLoop t rb []

/-- A word character for the `\b` boundary of Python `re`
(`[A-Za-z0-9_]` over the parser's ASCII data). -/
def isWordChar (c : Char) : Bool := c.isAlpha || c.isDigit || c = '_'

/-- Does one of the three label literals of
`re.split(r'\b(Address|Designation|ID No)\b', value)` start here, with
word boundaries on both sides?  (`prev` is the character before this
position, if any; the literals are matched case-sensitively, as
`re.split` is called without flags.) -/
def occLabelAt (prev : Option Char) (s : Str) : Bool :=
  [chars "Address", chars "Designation", chars "ID No"].any fun lbl =>
    lbl.isPrefixOf s &&
    (match prev with | none => true | some c => !isWordChar c) &&
    (match (s.drop lbl.length).head? with | none => true | some c => !isWordChar c)

/-- Scan for the earliest boundary-delimited label occurrence and keep
the text before it. -/
def occSplitAux (prev : Option Char) : Str → Str
  | [] => []
  | c :: t => if occLabelAt prev (c :: t) then [] else c :: occSplitAux (some c) t

/-- `re.split(r'\b(Address|Designation|ID No)\b', value)[0]` from
`DataParser._extract_occupation_info` (line 750). -/
def occSplit (s : Str) : Str := occSplitAux none s

/-- Bounded worker for the whitespace-collapsing `re.sub` (fuel is the
length of the scanned text; each step consumes at least one
character, so the fuel never runs out). -/
def collapseWSAux : Nat → Str → Str
  | 0, s => s
  | _ + 1, [] => []
  | n + 1, c :: t =>
    if pyWS c then ' ' :: collapseWSAux n (t.dropWhile pyWS)
    else c :: collapseWSAux n t

/-- The `re.sub` whitespace collapse: every whitespace run becomes one
space. -/
def collapseWS (s : Str) : Str := collapseWSAux s.length s

/-- Bounded worker for Python `str.replace` (fuel is the length of the
scanned text, enough for the leftmost, non-overlapping scan). -/
def replaceAllAux (needle repl : Str) : Nat → Str → Str
  | 0, s => s
  | _ + 1, [] => []
  | n + 1, c :: t =>
    if needle ≠ [] ∧ needle.isPrefixOf (c :: t) then
      repl ++ replaceAllAux needle repl n ((c :: t).drop needle.length)
    else c :: replaceAllAux needle repl n t

/-- Python `s.replace(needle, repl)`. -/
def replaceAll (needle repl s : Str) : Str := replaceAllAux needle repl s.length s

/-- The label a field name reduces to, from
`DataParser._extract_occupation_info` (line 765): delete every
occurrence of the five characters of the `_name` suffix token, turn
the remaining underscores into spaces, strip and lower
(in the source: field.replace('_name', '').replace('_', ' ').strip().lower()). -/
def occLabel (f : Str) : Str :=
  lowerStr (pyStrip (replaceAll (chars "_") (chars " ") (replaceAll (chars "_name") [] f)))

/-- The layout artifacts rejected at src/data_parser.py line 762. -/
def occArtifacts : List Str :=
  [chars "permanent", chars "current", chars "temporary", chars "occupation", chars "address"]

/-- The field loop of `DataParser._extract_occupation_info`
(src/data_parser.py lines 745-768). -/
def occLoop (t : Str) : List (Str × List Rule) → Record → Record
  | [], acc => acc
  | (f, rs) :: rest, acc =>
    let acc₂ :=
      match extractField t rs with
      | none => acc
      | some v₀ =>
        let v := collapseWS (pyStrip (occSplit v₀))
        if v ≠ [] ∧ v ≠ dash then
          if lowerStr v ∈ occArtifacts then acc
          else if lowerStr v = occLabel f then acc
          else setk acc f v
        else acc
    occLoop t rest acc₂

/-- `DataParser._extract_occupation_info` (src/data_parser.py lines
741-774), parameterised by the occupation rule book: run the field
loop, then fall back to the generic sector capture when no occupation
value survived. -/
def extractOccupationInfo (rb : List (Str × List Rule)) (t : Str) : Record :=
  let d := occLoop t rb []
  if !recHas (chars "occupation") d then
    match recLookup (chars "sector") d with
    | some s => setk d (chars "occupation") s
    | none => d
  else d

/-- Key constants for the family-member record. -/
def kGrandfather : Str := chars "grandfather_name"

/-- Key constant: father. -/
def kFather : Str := chars "father_name"

/-- Key constant: mother. -/
def kMother : Str := chars "mother_name"

/-- Key constant: spouse. -/
def kSpouse : Str := chars "spouse_name"

/-- The condition under which `DataParser._validate_family_names`
calls `st.warning` (src/data_parser.py lines 691-693): father and
grandfather both extracted and identical. -/
def familyWarning (d : Record) : Bool :=
  recHas kFather d && recHas kGrandfather d &&
    decide (recLookup kFather d = recLookup kGrandfather d)

/-- `DataParser._validate_family_names` (src/data_parser.py lines
686-703) as a record transformer.  The father/grandfather warning does
not change the record (the deletion is commented out in the source).
The spouse checks mirror the source exactly: after the first check
deletes `spouse_name`, the second check still evaluates
`family_data[<spouse key>]`, which raises `KeyError` when the key is
gone — modelled as the `Except.error` outcome. -/
def validateFamilyNames (d : Record) : Except Unit Record :=
  if recHas kSpouse d then
    let d₁ :=
      if recHas kFather d ∧ recLookup kSpouse d = recLookup kFather d then
        recErase kSpouse d
      else d
    if recHas kMother d₁ then
      match recLookup kSpouse d₁ with
      | none => Except.error ()
      | some sv =>
        if some sv = recLookup kMother d₁ then Except.ok (recErase kSpouse d₁)
        else Except.ok d₁
    else Except.ok d₁
  else Except.ok d

/-- One category sub-extractor as seen by `DataParser.parse_data`: it
either returns its partial record or raises. -/
abbrev SubExtractor := Str → Except Unit Record

/-- The `try` body of `DataParser.parse_data`: run the sub-extractors
in order, merging each result into the accumulated record; a raise
aborts the sequence. -/
def runExtractors (t : Str) : List SubExtractor → Record → Except Unit Record
  | [], acc => Except.ok acc
  | e :: es, acc =>
    match e t with
    | Except.error u => Except.error u
    | Except.ok d => runExtractors t es (updateRec acc d)

/-- `DataParser.parse_data` (src/data_parser.py lines 383-436): empty
input yields an empty record at once; otherwise the sub-extractors run
in sequence inside `try`, and any raise is caught, discarding the
partial record and returning an empty one. -/
def parseData (es : List SubExtractor) (t : Str) : Record :=
  if t = [] then []
  else
    match runExtractors t es [] with
    | Except.ok r => r
    | Except.error _ => []

/-- The digit filter `re.sub` call (keep only digits, hyphen, slash) from
`DataParser._extract_basic_info` (lines 497-499): keep only digits,
hyphens and slashes of the trimmed capture. -/
def citizClean (s : Str) : Str :=
  (pyStrip s).filter fun c => c.isDigit || c = '-' || c = '/'

/-- The `re.match` full-date check (four digits, a hyphen or slash, two digits, a hyphen or slash, two digits) from
`DataParser._extract_basic_info` (line 503): a full date shape, four
digits, a separator, two digits, a separator, two digits. -/
def isDateShape : Str → Bool
  | [a, b, c, d, s₁, e, f, s₂, g, h] =>
    a.isDigit && b.isDigit && c.isDigit && d.isDigit &&
    (s₁ = '-' || s₁ = '/') && e.isDigit && f.isDigit &&
    (s₂ = '-' || s₂ = '/') && g.isDigit && h.isDigit
  | _ => false

/-- The citizenship-number validation of `DataParser._extract_basic_info`
(src/data_parser.py lines 494-506), applied to the raw capture
returned by the field extractor: clean the value, then accept it only
if it is non-empty, at least 3 characters, not date-shaped and does
not start with 19 or 20. -/
def citizAccept (s : Str) : Option Str :=
  if citizClean s ≠ [] ∧ 3 ≤ (citizClean s).length ∧ isDateShape (citizClean s) = false ∧
     (chars "20").isPrefixOf (citizClean s) = false ∧
     (chars "19").isPrefixOf (citizClean s) = false
  then some (citizClean s) else none

/-- Items of a translated regex, covering the constructs used by the
patterns of the catalog that the theorems below evaluate concretely:
case-insensitive literals (the parser compiles every pattern with
re.IGNORECASE), character classes with counted greedy or lazy
repetition, the capture group, counted repetition of a sub-pattern,
alternation, lookahead, negative lookahead and the MULTILINE
end-of-line anchor. -/
inductive RI : Type where
  | lit : Str → RI
  | cls : (Char → Bool) → Nat → Option Nat → Bool → RI
  | grp : List RI → RI
  | rep : List RI → Nat → Option Nat → Bool → RI
  | alt : List (List RI) → RI
  | look : List RI → RI
  | nlook : List RI → RI
  | lineEnd : RI

/-- Match a case-insensitively stored literal at the head of the text,
returning the rest. -/
def ciDrop (pat s : Str) : Option Str :=
  match pat, s with
  | [], s => some s
  | _ :: _, [] => none
  | p :: pt, c :: ct => if c.toLower = p then ciDrop pt ct else none

/-- Candidate repetition counts between `lo` and `hi` (capped at `m`),
longest first when greedy, shortest first when lazy — the order in
which a backtracking matcher visits them. -/
def countsFor (lo : Nat) (hi : Option Nat) (greedy : Bool) (m : Nat) : List Nat :=
  let top := match hi with | none => m | some h => min h m
  if lo > top then []
  else
    let asc := (List.range (top + 1 - lo)).map (· + lo)
    if greedy then asc.reverse else asc

mutual

/-- All ways a translated pattern matches a prefix of `s`, in
backtracking priority order, each with the remaining suffix and the
text of capture group 1 (if the group participated in the match).
`fuel` bounds the recursion depth; every evaluation below runs well
inside it. -/
def mseq (fuel : Nat) (items : List RI) (s : Str) : List (Str × Option Str) :=
  match fuel with
  | 0 => []
  | fuel + 1 =>
    match items with
    | [] => [(s, none)]
    | RI.lit p :: rest =>
      match ciDrop p s with
      | none => []
      | some s₂ => mseq fuel rest s₂
    | RI.cls p lo hi g :: rest =>
      (countsFor lo hi g (s.takeWhile p).length).flatMap fun n => mseq fuel rest (s.drop n)
    | RI.grp inner :: rest =>
      (mseq fuel inner s).flatMap fun pr =>
        let cap := s.take (s.length - pr.1.length)
        (mseq fuel rest pr.1).map fun pr₂ => (pr₂.1, some cap)
    | RI.rep inner lo hi g :: rest =>
      (countsFor lo hi g (s.length + lo)).flatMap fun k =>
        (mrep fuel k inner s).flatMap fun s₂ => mseq fuel rest s₂
    | RI.alt alts :: rest =>
      alts.flatMap fun a => mseq fuel (a ++ rest) s
    | RI.look inner :: rest =>
      if (mseq fuel inner s).isEmpty then [] else mseq fuel rest s
    | RI.nlook inner :: rest =>
      if (mseq fuel inner s).isEmpty then mseq fuel rest s else []
    | RI.lineEnd :: rest =>
      match s with
      | [] => mseq fuel rest s
      | c :: _ => if c = '\n' then mseq fuel rest s else []

/-- Match `k` consecutive copies of a sub-pattern, returning the
possible remaining suffixes in priority order. -/
def mrep (fuel : Nat) (k : Nat) (inner : List RI) (s : Str) : List Str :=
  match fuel with
  | 0 => []
  | fuel + 1 =>
    match k with
    | 0 => [s]
    | k + 1 => (mseq fuel inner s).flatMap fun pr => mrep fuel k inner pr.1

end

/-- `re.search`: scan start positions left to right and return the
first match (group 1 text, or none when the group did not take part in
the match). -/
def rsearch (pat : List RI) : Str → Option (Option Str)
  | [] => ((mseq 200 pat []).head?).map Prod.snd
  | c :: t =>
    match (mseq 200 pat (c :: t)).head? with
    | some pr => some pr.2
    | none => rsearch pat t

/-- The `Rule` denoted by a translated pattern: a found match whose
group 1 did not participate makes `match.group(1).strip()` raise
(`None` has no `strip`), which the `except` of `_extract_field`
catches — hence the `err` outcome. -/
def ruleOf (pat : List RI) : Rule := fun t =>
  match rsearch pat t with
  | none => RuleResult.noMatch
  | some none => RuleResult.err
  | some (some c) => RuleResult.found c

/-- Class `[A-Za-z\s]` (IGNORECASE makes case irrelevant). -/
def alphaWsChar (c : Char) : Bool := c.isAlpha || pyWS c

/-- Class `[A-Za-z0-9_\s]`. -/
def alnumUnderWsChar (c : Char) : Bool := c.isAlpha || c.isDigit || c = '_' || pyWS c

/-- Class `[0-9]` alias `\d`. -/
def digitChar (c : Char) : Bool := c.isDigit

/-- The dot: any character but a newline. -/
def dotChar (c : Char) : Bool := !(c = '\n')

/-- Class `[A-Za-z0-9@._\x2d]` of the email patterns. -/
def emailChar (c : Char) : Bool :=
  c.isAlpha || c.isDigit || c = '@' || c = '.' || c = '_' || c = '-'

/-- Class `[A-Za-z/ ]` of the occupation patterns. -/
def occChar (c : Char) : Bool := c.isAlpha || c = '/' || c = ' '

/-- Class `[A-Z0-9 ,\x2d&]` (with IGNORECASE) of the organization-name
pattern. -/
def orgChar (c : Char) : Bool :=
  c.isAlpha || c.isDigit || c = ' ' || c = ',' || c = '-' || c = '&'

/-- Class `[A-Z0-9 ,\x2d]` (with IGNORECASE) of the occupation address
pattern. -/
def addrChar (c : Char) : Bool := c.isAlpha || c.isDigit || c = ' ' || c = ',' || c = '-'

/-- Class `[A-Za-z\s\x2d]` of the organization and designation
patterns. -/
def alphaWsDashChar (c : Char) : Bool := c.isAlpha || pyWS c || c = '-'

/-- Class `[.:]` of the `No[.:]?` fragments. -/
def dotColonChar (c : Char) : Bool := c = '.' || c = ':'

/-- Shorthand: `[:\s]*`. -/
def colonsStar : RI := RI.cls colonWsChar 0 none true

/-- Shorthand: `\s*`. -/
def wsStar : RI := RI.cls pyWS 0 none true

/-- Shorthand: the lazy `.*?`. -/
def lazyDot : RI := RI.cls dotChar 0 none false

/-- Temporary-address pattern, country, rule 1:
`Temporary Address[:\s]*.*?Country[:\s]*([A-Za-z\s]+)`. -/
def tempCountryP1 : List RI :=
  [RI.lit (chars "temporary address"), colonsStar, lazyDot,
   RI.lit (chars "country"), colonsStar, RI.grp [RI.cls alphaWsChar 1 none true]]

/-- Temporary-address pattern, country, rule 2 (Devanagari
transliteration): `c:yfoL 7]ufgf[:\s]*.*?b]z[:\s]*([A-Za-z\s]+)`
(literals stored lowercased for the case-insensitive match). -/
def tempCountryP2 : List RI :=
  [RI.lit (chars "c:yfol 7]ufgf"), colonsStar, lazyDot,
   RI.lit (chars "b]z"), colonsStar, RI.grp [RI.cls alphaWsChar 1 none true]]

/-- Temporary-address pattern, province, rule 1:
`Temporary Address[:\s]*.*?Province[:\s]*([A-Za-z0-9_\s]+)`. -/
def tempProvinceP1 : List RI :=
  [RI.lit (chars "temporary address"), colonsStar, lazyDot,
   RI.lit (chars "province"), colonsStar, RI.grp [RI.cls alnumUnderWsChar 1 none true]]

/-- Temporary-address pattern, province, rule 2:
`c:yfoL 7]ufgf[:\s]*.*?k|b]z[:\s]*([A-Za-z0-9_\s]+)` — the `|` is
top-level, so the pattern is an alternation whose first branch has no
group (a match on it makes group 1 `None`). -/
def tempProvinceP2 : List RI :=
  [RI.alt
    [[RI.lit (chars "c:yfol 7]ufgf"), colonsStar, lazyDot, RI.lit (chars "k")],
     [RI.lit (chars "b]z"), colonsStar, RI.grp [RI.cls alnumUnderWsChar 1 none true]]]]

/-- Temporary-address pattern, district, rule 1:
`Temporary Address[:\s]*.*?District[:\s]*([A-Za-z\s]+)`. -/
def tempDistrictP1 : List RI :=
  [RI.lit (chars "temporary address"), colonsStar, lazyDot,
   RI.lit (chars "district"), colonsStar, RI.grp [RI.cls alphaWsChar 1 none true]]

/-- Temporary-address pattern, district, rule 2:
`c:yfoL 7]ufgf[:\s]*.*?lhNnf[:\s]*([A-Za-z\s]+)`. -/
def tempDistrictP2 : List RI :=
  [RI.lit (chars "c:yfol 7]ufgf"), colonsStar, lazyDot,
   RI.lit (chars "lhnnf"), colonsStar, RI.grp [RI.cls alphaWsChar 1 none true]]

/-- Temporary-address pattern, municipality, rule 1:
`Temporary Address[:\s]*.*?Municipality[:\s]*([A-Za-z\s]+)`. -/
def tempMunicipalityP1 : List RI :=
  [RI.lit (chars "temporary address"), colonsStar, lazyDot,
   RI.lit (chars "municipality"), colonsStar, RI.grp [RI.cls alphaWsChar 1 none true]]

/-- Temporary-address pattern, municipality, rule 2:
`c:yfoL 7]ufgf[:\s]*.*?uf=kf=[:\s]*([A-Za-z\s]+)`. -/
def tempMunicipalityP2 : List RI :=
  [RI.lit (chars "c:yfol 7]ufgf"), colonsStar, lazyDot,
   RI.lit (chars "uf=kf="), colonsStar, RI.grp [RI.cls alphaWsChar 1 none true]]

/-- Temporary-address pattern, ward number, rule 1:
`Temporary Address[:\s]*.*?Ward No[.:]?\s*(\d+)`. -/
def tempWardP1 : List RI :=
  [RI.lit (chars "temporary address"), colonsStar, lazyDot,
   RI.lit (chars "ward no"), RI.cls dotColonChar 0 (some 1) true, wsStar,
   RI.grp [RI.cls digitChar 1 none true]]

/-- Temporary-address pattern, ward number, rule 2:
`c:yfoL 7]ufgf[:\s]*.*?j8f g+=[:\s]*(\d+)` — `g+` is one or more `g`. -/
def tempWardP2 : List RI :=
  [RI.lit (chars "c:yfol 7]ufgf"), colonsStar, lazyDot,
   RI.lit (chars "j8f "), RI.cls (fun c => c.toLower = 'g') 1 none true,
   RI.lit (chars "="), colonsStar, RI.grp [RI.cls digitChar 1 none true]]

/-- Temporary-address pattern, tole, rule 1:
`Temporary Address[:\s]*.*?Tole[:\s]*([A-Za-z\s]+)`. -/
def tempToleP1 : List RI :=
  [RI.lit (chars "temporary address"), colonsStar, lazyDot,
   RI.lit (chars "tole"), colonsStar, RI.grp [RI.cls alphaWsChar 1 none true]]

/-- Temporary-address pattern, tole, rule 2:
`c:yfoL 7]ufgf[:\s]*.*?6f]n[:\s]*([A-Za-z\s]+)`. -/
def tempToleP2 : List RI :=
  [RI.lit (chars "c:yfol 7]ufgf"), colonsStar, lazyDot,
   RI.lit (chars "6f]n"), colonsStar, RI.grp [RI.cls alphaWsChar 1 none true]]

/-- Temporary-address pattern, telephone, rule 1:
`Temporary Address[:\s]*.*?Telephone No[.:]?\s*(\d+)`. -/
def tempTelephoneP1 : List RI :=
  [RI.lit (chars "temporary address"), colonsStar, lazyDot,
   RI.lit (chars "telephone no"), RI.cls dotColonChar 0 (some 1) true, wsStar,
   RI.grp [RI.cls digitChar 1 none true]]

/-- Temporary-address pattern, telephone, rule 2:
`c:yfoL 7]ufgf[:\s]*.*?6]lnkmf]g g+=[:\s]*(\d+)`. -/
def tempTelephoneP2 : List RI :=
  [RI.lit (chars "c:yfol 7]ufgf"), colonsStar, lazyDot,
   RI.lit (chars "6]lnkmf]g "), RI.cls (fun c => c.toLower = 'g') 1 none true,
   RI.lit (chars "="), colonsStar, RI.grp [RI.cls digitChar 1 none true]]

/-- Temporary-address pattern, mobile, rule 1:
`Temporary Address[:\s]*.*?Mobile No[.:]?\s*(\d+)`. -/
def tempMobileP1 : List RI :=
  [RI.lit (chars "temporary address"), colonsStar, lazyDot,
   RI.lit (chars "mobile no"), RI.cls dotColonChar 0 (some 1) true, wsStar,
   RI.grp [RI.cls digitChar 1 none true]]

/-- Temporary-address pattern, mobile, rule 2:
`c:yfoL 7]ufgf[:\s]*.*?df]afOn g+=[:\s]*(\d+)`. -/
def tempMobileP2 : List RI :=
  [RI.lit (chars "c:yfol 7]ufgf"), colonsStar, lazyDot,
   RI.lit (chars "df]afon "), RI.cls (fun c => c.toLower = 'g') 1 none true,
   RI.lit (chars "="), colonsStar, RI.grp [RI.cls digitChar 1 none true]]

/-- Temporary-address pattern, email, rule 1:
`Temporary Address[:\s]*.*?Email ID[:\s]*([A-Za-z0-9@._\x2d]+)`. -/
def tempEmailP1 : List RI :=
  [RI.lit (chars "temporary address"), colonsStar, lazyDot,
   RI.lit (chars "email id"), colonsStar, RI.grp [RI.cls emailChar 1 none true]]

/-- Temporary-address pattern, email, rule 2:
`c:yfoL 7]ufgf[:\s]*.*?O{d]n[:\s]*([A-Za-z0-9@._\x2d]+)` — the
open brace is not a valid quantifier, so Python matches it literally. -/
def tempEmailP2 : List RI :=
  [RI.lit (chars "c:yfol 7]ufgf"), colonsStar, lazyDot,
   RI.lit (chars "o\x7bd]n"), colonsStar, RI.grp [RI.cls emailChar 1 none true]]

/-- The `temporary_address` rule book of the pattern catalog
(src/data_parser.py lines 330-367), fields in dict order. -/
def tempRB : List (Str × List Rule) :=
  [(chars "country", [ruleOf tempCountryP1, ruleOf tempCountryP2]),
   (chars "province", [ruleOf tempProvinceP1, ruleOf tempProvinceP2]),
   (chars "district", [ruleOf tempDistrictP1, ruleOf tempDistrictP2]),
   (chars "municipality", [ruleOf tempMunicipalityP1, ruleOf tempMunicipalityP2]),
   (chars "ward_no", [ruleOf tempWardP1, ruleOf tempWardP2]),
   (chars "tole", [ruleOf tempToleP1, ruleOf tempToleP2]),
   (chars "telephone", [ruleOf tempTelephoneP1, ruleOf tempTelephoneP2]),
   (chars "mobile", [ruleOf tempMobileP1, ruleOf tempMobileP2]),
   (chars "email", [ruleOf tempEmailP1, ruleOf tempEmailP2])]

/-- End-of-line alternatives `(?:$|\n)` inside a lookahead (with
MULTILINE, `$` also matches before a newline, so the two branches
overlap; both are kept for faithfulness). -/
def eolAlts : List (List RI) := [[RI.lineEnd], [RI.lit ['\n']]]

/-- Occupation pattern, rule 1:
`Occupation[\s\n]*([A-Za-z/ ]{3,50})(?=\s*(?:Types|Organization|Name|$|\n))`. -/
def occP1 : List RI :=
  [RI.lit (chars "occupation"), wsStar,
   RI.grp [RI.cls occChar 3 (some 50) true],
   RI.look [wsStar, RI.alt ([[RI.lit (chars "types")], [RI.lit (chars "organization")],
     [RI.lit (chars "name")]] ++ eolAlts)]]

/-- Occupation pattern, rule 2:
`Details of Occupation[\s\n]*Occupation[\s\n]*([A-Za-z/ ]{3,50})`. -/
def occP2 : List RI :=
  [RI.lit (chars "details of occupation"), wsStar,
   RI.lit (chars "occupation"), wsStar,
   RI.grp [RI.cls occChar 3 (some 50) true]]

/-- Occupation pattern, rule 3:
`k]zf[:\s\n]*([A-Za-z/ ]{3,50})(?=\s*(?:k|sf/|;+:yf|$|\n))`. -/
def occP3 : List RI :=
  [RI.lit (chars "k]zf"), colonsStar,
   RI.grp [RI.cls occChar 3 (some 50) true],
   RI.look [wsStar, RI.alt ([[RI.lit (chars "k")], [RI.lit (chars "sf/")],
     [RI.cls (fun c => c = ';') 1 none true, RI.lit (chars ":yf")]] ++ eolAlts)]]

/-- Organization-name pattern:
`Organization'?s?[\s\n]*Name[\s\n]*((?:[A-Z0-9 ,\x2d&]{2,}(?:\n| ){0,2}){1,5})`. -/
def orgNameP : List RI :=
  [RI.lit (chars "organization"),
   RI.cls (fun c => c = '\x27') 0 (some 1) true,
   RI.cls (fun c => c.toLower = 's') 0 (some 1) true,
   wsStar, RI.lit (chars "name"), wsStar,
   RI.grp [RI.rep [RI.cls orgChar 2 none true,
                   RI.cls (fun c => c = '\n' || c = ' ') 0 (some 2) true] 1 (some 5) true]]

/-- Organization pattern, rule 1:
`Organization's Name[:\s]+([A-Za-z\s\x2d]+?)(?=\s*(?:Address|Designation|$|\n))`. -/
def orgP1 : List RI :=
  [RI.lit (chars "organization\x27s name"), RI.cls colonWsChar 1 none true,
   RI.grp [RI.cls alphaWsDashChar 1 none false],
   RI.look [wsStar, RI.alt ([[RI.lit (chars "address")], [RI.lit (chars "designation")]] ++ eolAlts)]]

/-- Organization pattern, rule 2:
`;+:yfsf] gfd[:\s]+([A-Za-z\s\x2d]+?)(?=\s*(?:7]ufgf|kb|$|\n))`. -/
def orgP2 : List RI :=
  [RI.cls (fun c => c = ';') 1 none true, RI.lit (chars ":yfsf] gfd"),
   RI.cls colonWsChar 1 none true,
   RI.grp [RI.cls alphaWsDashChar 1 none false],
   RI.look [wsStar, RI.alt ([[RI.lit (chars "7]ufgf")], [RI.lit (chars "kb")]] ++ eolAlts)]]

/-- Designation pattern, rule 1:
`Designation[\s]+([A-Za-z\s\x2d]{2,50})(?=\s*(ID No|Employee|Number|$|\n))` —
the parenthesis in the lookahead is capture group 2, never read by the
parser, so it is translated as a plain alternation. -/
def desigP1 : List RI :=
  [RI.lit (chars "designation"), RI.cls pyWS 1 none true,
   RI.grp [RI.cls alphaWsDashChar 2 (some 50) true],
   RI.look [wsStar, RI.alt ([[RI.lit (chars "id no")], [RI.lit (chars "employee")],
     [RI.lit (chars "number")]] ++ eolAlts)]]

/-- Designation pattern, rule 2:
`kb[\s]+([A-Za-z\s\x2d]{2,50})(?=\s*(sd{rf/L|k|lr/rokq|$|\n))` — the
open brace after `sd` is literal. -/
def desigP2 : List RI :=
  [RI.lit (chars "kb"), RI.cls pyWS 1 none true,
   RI.grp [RI.cls alphaWsDashChar 2 (some 50) true],
   RI.look [wsStar, RI.alt ([[RI.lit (chars "sd\x7brf/l")], [RI.lit (chars "k")],
     [RI.lit (chars "lr/rokq")]] ++ eolAlts)]]

/-- Sector pattern: `Occupation\s*[:\s]*([^\n]+)`. -/
def sectorP : List RI :=
  [RI.lit (chars "occupation"), wsStar, colonsStar,
   RI.grp [RI.cls dotChar 1 none true]]

/-- Occupation address pattern: `Address[\s\n]*([A-Z0-9 ,\x2d]{3,50})`. -/
def occAddrP : List RI :=
  [RI.lit (chars "address"), wsStar, RI.grp [RI.cls addrChar 3 (some 50) true]]

/-- Financial-details pattern:
`Income Limit\(Annual Details\)\s*([^\n]+)`. -/
def finDetP : List RI :=
  [RI.lit (chars "income limit(annual details)"), wsStar,
   RI.grp [RI.cls dotChar 1 none true]]

/-- Investment-involvement pattern:
`Involvement in Investment companies which were established for
securities trading\s*(Yes|No)`. -/
def invInvP : List RI :=
  [RI.lit (chars "involvement in investment companies which were established for securities trading"),
   wsStar, RI.grp [RI.alt [[RI.lit (chars "yes")], [RI.lit (chars "no")]]]]

/-- Class `[A-Za-z ]` of the business-type patterns. -/
def alphaSpChar (c : Char) : Bool := c.isAlpha || c = ' '

/-- Business-type pattern, rule 1:
`Types of[\s\n]*Business[\s\n]*([A-Za-z ]+)`. -/
def btP1 : List RI :=
  [RI.lit (chars "types of"), wsStar, RI.lit (chars "business"), wsStar,
   RI.grp [RI.cls alphaSpChar 1 none true]]

/-- Business-type pattern, rule 2: `Service Oriented[\s\n]*([A-Za-z ]+)`. -/
def btP2 : List RI :=
  [RI.lit (chars "service oriented"), wsStar, RI.grp [RI.cls alphaSpChar 1 none true]]

/-- Business-type pattern, rule 3: `Manufacturing[\s\n]*([A-Za-z ]+)`. -/
def btP3 : List RI :=
  [RI.lit (chars "manufacturing"), wsStar, RI.grp [RI.cls alphaSpChar 1 none true]]

/-- Business-type pattern, rule 4: `Others[\s\n]*([A-Za-z ]+)`. -/
def btP4 : List RI :=
  [RI.lit (chars "others"), wsStar, RI.grp [RI.cls alphaSpChar 1 none true]]

/-- The `occupation` rule book of the pattern catalog
(src/data_parser.py lines 244-297), fields in dict order. -/
def occRB : List (Str × List Rule) :=
  [(chars "occupation", [ruleOf occP1, ruleOf occP2, ruleOf occP3]),
   (chars "organization_name", [ruleOf orgNameP]),
   (chars "organization", [ruleOf orgP1, ruleOf orgP2]),
   (chars "designation", [ruleOf desigP1, ruleOf desigP2]),
   (chars "sector", [ruleOf sectorP]),
   (chars "address", [ruleOf occAddrP]),
   (chars "financial_details", [ruleOf finDetP]),
   (chars "investment_involvement", [ruleOf invInvP]),
   (chars "business_type", [ruleOf btP1, ruleOf btP2, ruleOf btP3, ruleOf btP4])]

/-- The C2 failing input: a temporary-address country whose captured
value starts with the word Province. -/
def c2text : Str := chars "Temporary Address Country: Province Bagmati"

/-- The C5 scenario input from the spec: the occupation label echoed
on a line before the value. -/
def c5text : Str := chars "Occupation\nOccupation\nStudent"

/-- The C6 failing input: a family record whose spouse name equals the
father name while a mother name is present. -/
def famRecC6 : Record :=
  [(kFather, chars "RAM"), (kMother, chars "SITA"), (kSpouse, chars "RAM")]

/-- The C7 failing input: father equals grandfather (the warning case)
and also spouse equals father with a mother present (the crash case). -/
def famRecC7 : Record :=
  [(kGrandfather, chars "RAM"), (kFather, chars "RAM"),
   (kMother, chars "SITA"), (kSpouse, chars "RAM")]

/-- A line of the C3 scenario: the shared field label and a value. -/
def countryLine (x : Str) : Str := chars "Country: " ++ x

/-- The current-address header line of the C3 scenario. -/
def curHeaderLine : Str := chars "Current Address"

/-- The permanent-address header line of the C3 scenario. -/
def permHeaderLine : Str := chars "Permanent Address"

/-- A line is clean for the segmenter: its lowered, trimmed form
contains neither section marker nor any section-closing keyword, so
the line loop neither reroutes nor closes a section on it. -/
def segCleanB (l : Str) : Bool :=
  !(isSubstrOf (chars "current address") (lineLower l)) &&
  !(isSubstrOf (chars "permanent address") (lineLower l)) &&
  !(isSubstrOf (chars "permanent") (lineLower l)) &&
  !(isSubstrOf (chars "temporary") (lineLower l)) &&
  !(isSubstrOf (chars "family") (lineLower l)) &&
  !(isSubstrOf (chars "bank") (lineLower l)) &&
  !(isSubstrOf (chars "occupation") (lineLower l))

/-- Witness rule: never matches. -/
def wRuleFail : Rule := fun _ => RuleResult.noMatch

/-- Witness rule: always captures a padded value. -/
def wRuleOk : Rule := fun _ => RuleResult.found (chars " OK ")

/-- Witness rule: always captures the value A. -/
def wRuleA : Rule := fun _ => RuleResult.found (chars "A")

/-- Witness rule: always raises while matching. -/
def wRuleErr : Rule := fun _ => RuleResult.err

/-- Witness sub-extractor: returns an empty partial record. -/
def wSubOk : SubExtractor := fun _ => Except.ok []

/-- Witness sub-extractor: raises. -/
def wSubErr : SubExtractor := fun _ => Except.error ()

/-- Witness rule for the address fallback: captures the value Nepal
whenever the text mentions it. -/
def wNepalRule : Rule := fun s =>
  if isSubstrOf (chars "Nepal") s then RuleResult.found (chars "Nepal")
  else RuleResult.noMatch

lemma extractField_cons (t : Str) (r : Rule) (rest : List Rule) :
    extractField t (r :: rest) =
      (match ruleHit r t with
       | some v => some v
       | none => extractField t rest) := by
  cases h : r t with
  | err => simp only [extractField, ruleHit, h]
  | noMatch => simp only [extractField, ruleHit, h]
  | found s =>
    simp only [extractField, ruleHit, h]
    by_cases hc : pyStrip s ≠ [] ∧ pyStrip s ≠ dash <;> simp [hc]

lemma dropWhile_head_not (p : Char → Bool) (l : Str) :
    ∀ c, (l.dropWhile p).head? = some c → p c = false := by
  induction l with
  | nil => intro c hc; simp [List.dropWhile] at hc
  | cons a t ih =>
    intro c hc
    by_cases h : p a
    · rw [List.dropWhile_cons_of_pos h] at hc
      exact ih c hc
    · rw [List.dropWhile_cons_of_neg h] at hc
      simp only [List.head?_cons, Option.some.injEq] at hc
      subst hc
      simpa using h

lemma dropWhile_of_head_not (p : Char → Bool) (l : Str)
    (h : ∀ c, l.head? = some c → p c = false) : l.dropWhile p = l := by
  cases l with
  | nil => rfl
  | cons a t =>
    have := h a rfl
    simp [List.dropWhile, this]

lemma trimRight_prefix (s : Str) : trimRight s <+: s := by
  unfold trimRight
  have hsuf : s.reverse.dropWhile pyWS <:+ s.reverse := List.dropWhile_suffix _
  have h₂ := (@List.reverse_prefix Char (s.reverse.dropWhile pyWS) s.reverse).mpr hsuf
  rwa [List.reverse_reverse] at h₂

lemma prefix_head_eq {w z : Str} (h : w <+: z) (hne : w ≠ []) : w.head? = z.head? := by
  obtain ⟨u, rfl⟩ := h
  cases w with
  | nil => exact absurd rfl hne
  | cons a t => rfl

lemma trimRight_eq_nil {z : Str} (h : trimRight z = []) : ∀ c ∈ z, pyWS c = true := by
  unfold trimRight at h
  have h₂ : z.reverse.dropWhile pyWS = [] := by
    have := congrArg List.reverse h
    rwa [List.reverse_reverse, List.reverse_nil] at this
  intro c hc
  exact List.dropWhile_eq_nil_iff.mp h₂ c (List.mem_reverse.mpr hc)

lemma trimRight_of_revhead (z : Str)
    (h : ∀ c, z.reverse.head? = some c → pyWS c = false) : trimRight z = z := by
  unfold trimRight
  by_cases hz0 : z.reverse = []
  · rw [hz0]
    simp only [List.dropWhile_nil, List.reverse_nil]
    exact (List.reverse_eq_nil_iff.mp hz0).symm
  · rw [dropWhile_of_head_not pyWS _ h, List.reverse_reverse]

lemma pyStrip_idem (s : Str) : pyStrip (pyStrip s) = pyStrip s := by
  unfold pyStrip
  have hzrev : (trimLeft (trimRight s)).reverse <+: (trimRight s).reverse := by
    have hsuf : trimLeft (trimRight s) <:+ trimRight s := List.dropWhile_suffix pyWS
    exact List.reverse_prefix.mpr hsuf
  have hwrev_head : ∀ c, (trimRight s).reverse.head? = some c → pyWS c = false := by
    intro c hc
    have hrw : (trimRight s).reverse = s.reverse.dropWhile pyWS := by
      unfold trimRight
      rw [List.reverse_reverse]
    rw [hrw] at hc
    exact dropWhile_head_not pyWS s.reverse c hc
  have hzz : ∀ c, (trimLeft (trimRight s)).reverse.head? = some c → pyWS c = false := by
    intro c hc
    have hz0 : (trimLeft (trimRight s)).reverse ≠ [] := by
      intro h0
      rw [h0] at hc
      simp at hc
    have hh := prefix_head_eq hzrev hz0
    exact hwrev_head c (hh ▸ hc)
  rw [trimRight_of_revhead _ hzz]
  exact dropWhile_of_head_not pyWS _ (dropWhile_head_not pyWS (trimRight s))

lemma ruleHit_some {r : Rule} {t v : Str} (h : ruleHit r t = some v) :
    pyStrip v = v ∧ v ≠ [] ∧ v ≠ dash := by
  unfold ruleHit at h
  cases hr : r t with
  | err => rw [hr] at h; simp at h
  | noMatch => rw [hr] at h; simp at h
  | found s =>
    rw [hr] at h
    simp only [] at h
    split at h
    · rename_i hcond
      injection h with hv
      subst hv
      exact ⟨pyStrip_idem s, hcond.1, hcond.2⟩
    · exact absurd h (by simp)

lemma extractField_some {t : Str} {rs : List Rule} {v : Str}
    (h : extractField t rs = some v) : pyStrip v = v ∧ v ≠ [] ∧ v ≠ dash := by
  induction rs with
  | nil => simp [extractField] at h
  | cons r rest ih =>
    rw [extractField_cons] at h
    cases hr : ruleHit r t with
    | none => rw [hr] at h; exact ih h
    | some w =>
      rw [hr] at h
      injection h with hv
      subst hv
      exact ruleHit_some hr

lemma extractField_eq_some_iff (t : Str) (rules : List Rule) (v : Str) :
    extractField t rules = some v ↔
      ∃ pre r post, rules = pre ++ r :: post ∧
        (∀ r₀ ∈ pre, ruleHit r₀ t = none) ∧ ruleHit r t = some v := by
  induction rules with
  | nil =>
    simp only [extractField]
    constructor
    · intro h; exact absurd h (by simp)
    · rintro ⟨pre, r, post, heq, -, -⟩
      exact absurd heq (by simp)
  | cons r₀ rest ih =>
    rw [extractField_cons]
    cases h : ruleHit r₀ t with
    | some w =>
      simp only [Option.some.injEq]
      constructor
      · intro hv
        subst hv
        exact ⟨[], r₀, rest, rfl, by simp, h⟩
      · rintro ⟨pre, r, post, heq, hpre, hr⟩
        cases pre with
        | nil =>
          simp only [List.nil_append, List.cons.injEq] at heq
          rw [heq.1] at h
          rw [h] at hr
          injection hr
        | cons p pre' =>
          simp only [List.cons_append, List.cons.injEq] at heq
          have hp := hpre p (List.mem_cons_self p pre')
          rw [heq.1] at h
          rw [hp] at h
          exact absurd h (by simp)
    | none =>
      constructor
      · intro hv
        obtain ⟨pre, r, post, heq, hpre, hr⟩ := ih.mp hv
        refine ⟨r₀ :: pre, r, post, by rw [heq]; rfl, ?_, hr⟩
        intro r₁ hr₁
        rcases List.mem_cons.mp hr₁ with h₁ | h₁
        · rw [h₁]; exact h
        · exact hpre r₁ h₁
      · rintro ⟨pre, r, post, heq, hpre, hr⟩
        cases pre with
        | nil =>
          simp only [List.nil_append, List.cons.injEq] at heq
          rw [heq.1] at h
          rw [h] at hr
          exact absurd hr (by simp)
        | cons p pre' =>
          simp only [List.cons_append, List.cons.injEq] at heq
          exact ih.mpr ⟨pre', r, post, heq.2, fun r₁ h₁ => hpre r₁ (List.mem_cons_of_mem p h₁), hr⟩

lemma extractField_eq_none_iff (t : Str) (rules : List Rule) :
    extractField t rules = none ↔ ∀ r ∈ rules, ruleHit r t = none := by
  induction rules with
  | nil => simp [extractField]
  | cons r₀ rest ih =>
    rw [extractField_cons]
    cases h : ruleHit r₀ t with
    | some w =>
      simp only []
      constructor
      · intro hv; exact absurd hv (by simp)
      · intro hall
        have := hall r₀ (List.mem_cons_self r₀ rest)
        rw [this] at h
        exact absurd h (by simp)
    | none =>
      simp only []
      rw [ih]
      constructor
      · intro hall r hr
        rcases List.mem_cons.mp hr with h₁ | h₁
        · rw [h₁]; exact h
        · exact hall r h₁
      · intro hall r hr
        exact hall r (List.mem_cons_of_mem r₀ hr)

lemma extractField_later_irrelevant (t : Str) (pre : List Rule) (r : Rule)
    (post post₂ : List Rule) (h : ruleHit r t ≠ none) :
    extractField t (pre ++ r :: post) = extractField t (pre ++ r :: post₂) := by
  induction pre with
  | nil =>
    simp only [List.nil_append]
    rw [extractField_cons, extractField_cons]
    cases hr : ruleHit r t with
    | none => exact absurd hr h
    | some w => simp
  | cons p pre' ih =>
    simp only [List.cons_append]
    rw [extractField_cons, extractField_cons]
    cases hp : ruleHit p t with
    | none => simpa using ih
    | some w => simp

/-- Claim C1: the field extractor tries the rules strictly in
declaration order; it returns `some v` exactly when some rule's
trimmed capture `v` is non-empty and not the single-dash placeholder
while every earlier rule contributed nothing; it returns `none`
exactly when no rule contributes a value; and once a rule succeeds the
rules after it are never consulted (the result does not depend on
them). -/
theorem claim_C1 (t : Str) (rules : List Rule) :
    (∀ v, extractField t rules = some v ↔
      ∃ pre r post, rules = pre ++ r :: post ∧
        (∀ r₀ ∈ pre, ruleHit r₀ t = none) ∧ ruleHit r t = some v)
  ∧ (extractField t rules = none ↔ ∀ r ∈ rules, ruleHit r t = none)
  ∧ (∀ pre r post post₂, ruleHit r t ≠ none →
      extractField t (pre ++ r :: post) = extractField t (pre ++ r :: post₂)) :=
  ⟨fun v => extractField_eq_some_iff t rules v,
   extractField_eq_none_iff t rules,
   fun pre r post post₂ h => extractField_later_irrelevant t pre r post post₂ h⟩

/-- Witness for claim C1: with a failing first rule and a succeeding
second rule, the rules after the second are irrelevant. -/
theorem claim_C1_witness :
    extractField (chars "t") [wRuleFail, wRuleOk, wRuleA] =
      extractField (chars "t") [wRuleFail, wRuleOk, wRuleErr] :=
  (claim_C1 (chars "t") []).2.2 [wRuleFail] wRuleOk [wRuleA] [wRuleErr] (by decide)

/-- Claim C9: a rule that raises during matching is skipped, the
remaining rules are still tried, and extraction (a total function into
`Option`) never aborts because of it: the rule list with the erroring
rule extracts exactly what the list without it extracts. -/
theorem claim_C9 (t : Str) (pre post : List Rule) (r : Rule)
    (h : r t = RuleResult.err) :
    extractField t (pre ++ r :: post) = extractField t (pre ++ post) := by
  induction pre with
  | nil =>
    simp only [List.nil_append]
    rw [extractField_cons]
    have hr : ruleHit r t = none := by simp [ruleHit, h]
    rw [hr]
  | cons p pre' ih =>
    simp only [List.cons_append]
    rw [extractField_cons, extractField_cons]
    cases hp : ruleHit p t with
    | none => simpa using ih
    | some w => simp

/-- Witness for claim C9: an erroring first rule is skipped and the
second rule still answers. -/
theorem claim_C9_witness :
    extractField (chars "ab") [wRuleErr, wRuleOk] = extractField (chars "ab") [wRuleOk] :=
  claim_C9 (chars "ab") [] [wRuleOk] wRuleErr rfl

lemma runExtractors_error (t : Str) (e : SubExtractor)
    (herr : e t = Except.error ()) :
    ∀ es, e ∈ es → ∀ acc, runExtractors t es acc = Except.error () := by
  intro es hmem
  induction es with
  | nil => cases hmem
  | cons e₀ rest ih =>
    intro acc
    rcases List.mem_cons.mp hmem with h | h
    · rw [← h]
      simp [runExtractors, herr]
    · cases h₀ : e₀ t with
      | error u => cases u; simp [runExtractors, h₀]
      | ok d =>
        simp only [runExtractors, h₀]
        exact ih h _

/-- Claim C8: `parse_data` on empty input returns the empty record at
once; and when a sub-extractor raises, the raise is caught (the model
is a total function), the partial record is discarded and the
orchestrator returns a completely empty record. -/
theorem claim_C8 (es : List SubExtractor) (t : Str) (e : SubExtractor) :
    parseData es [] = []
  ∧ (e ∈ es → e t = Except.error () → parseData es t = []) := by
  constructor
  · simp [parseData]
  · intro hmem herr
    unfold parseData
    by_cases ht : t = []
    · rw [if_pos ht]
    · rw [if_neg ht, runExtractors_error t e herr es hmem []]

/-- Witness for claim C8: a raising second sub-extractor empties the
whole record. -/
theorem claim_C8_witness : parseData [wSubOk, wSubErr] (chars "x") = [] :=
  (claim_C8 [wSubOk, wSubErr] (chars "x") wSubErr).2
    (List.Mem.tail wSubOk (List.Mem.head [])) rfl

/-- Claim C4: citizenship-number validation strips the capture to
digits, hyphens and slashes, and accepts exactly when the stripped
value has at least 3 characters, is not date-shaped (four digits, a
hyphen or slash, two digits, a hyphen or slash, two digits) and does
not start with 19 or 20; in particular 2024-05-01 and 19850101 are
rejected and 123456 is accepted. -/
theorem claim_C4 (s : Str) :
    (citizAccept s = some (citizClean s) ↔
      3 ≤ (citizClean s).length ∧ isDateShape (citizClean s) = false ∧
      (chars "19").isPrefixOf (citizClean s) = false ∧
      (chars "20").isPrefixOf (citizClean s) = false)
  ∧ (∀ v, citizAccept s = some v → v = citizClean s)
  ∧ citizAccept (chars "2024-05-01") = none
  ∧ citizAccept (chars "19850101") = none
  ∧ citizAccept (chars "123456") = some (chars "123456") := by
  have hne : 3 ≤ (citizClean s).length → citizClean s ≠ [] := by
    intro h3 hnil
    rw [hnil] at h3
    simp at h3
  refine ⟨?_, ?_, by decide, by decide, by decide⟩
  · unfold citizAccept
    constructor
    · intro h
      split_ifs at h with hc
      exact ⟨hc.2.1, hc.2.2.1, hc.2.2.2.2, hc.2.2.2.1⟩
    · intro ⟨h1, h2, h3, h4⟩
      rw [if_pos ⟨hne h1, h1, h2, h4, h3⟩]
  · intro v h
    unfold citizAccept at h
    split_ifs at h
    injection h with h₂
    exact h₂.symm

/-- Witness for claim C4: applying the characterisation at the
accepted concrete input 123456. -/
theorem claim_C4_witness : citizAccept (chars "123456") = some (citizClean (chars "123456")) :=
  (claim_C4 (chars "123456")).1.mpr (by decide)

/-- Claim C2 failing input: on a document whose temporary-address
country capture starts with the word Province, the record produced by
the temporary-address sub-extractor (and hence by `parse_data`, which
merges it unchanged) maps the key `temporary_country` to the empty
string — the split-at-Province cleanup is not re-checked before the
assignment, contradicting the claimed invariant. -/
theorem claim_C2 :
    extractTemporaryAddressInfo tempRB c2text =
      [(chars "temporary_country", []), (chars "temporary_province", chars "Bagmati")]
  ∧ recLookup (chars "temporary_country") (extractTemporaryAddressInfo tempRB c2text) =
      some [] := by
  exact ⟨rfl, rfl⟩

/-- Claim C5 failing input: on the spec's scenario text (the
occupation label echoed on the line before the value Student), the
first occupation rule captures the echoed label, the cleanup discards
it, the generic sector rule also captures the echoed label and is
discarded too, so the occupation sub-extractor returns an empty
record — no `occupation = Student` entry is produced. -/
theorem claim_C5 :
    extractOccupationInfo occRB c5text = []
  ∧ extractField c5text [ruleOf occP1, ruleOf occP2, ruleOf occP3] =
      some (chars "Occupation") := by
  exact ⟨rfl, rfl⟩

/-- Claim C6 failing input: a family record whose spouse name equals
the father name while a mother name is present.  The first check
deletes the spouse key, the second check then reads it again and
raises `KeyError`; under `parse_data` the raise is caught and the
whole record — father and mother included — is dropped, so the final
record does not keep the father and mother entries as claimed. -/
theorem claim_C6 :
    validateFamilyNames famRecC6 = Except.error ()
  ∧ parseData [fun _ => validateFamilyNames famRecC6] (chars "x") = [] := by
  exact ⟨rfl, rfl⟩

/-- Claim C7 failing input: father equals grandfather (the warning
condition holds) but the spouse slip of `_validate_family_names` then
raises, so the record that reaches the caller is empty — the father
and grandfather entries are not retained. -/
theorem claim_C7 :
    familyWarning famRecC7 = true
  ∧ validateFamilyNames famRecC7 = Except.error ()
  ∧ parseData [fun _ => validateFamilyNames famRecC7] (chars "x") = [] := by
  exact ⟨rfl, rfl, rfl⟩

/-- Claim C3: on a current-address block followed by a
permanent-address block, each holding a country line with the same
label, the segmenter puts exactly the current header and its country
line in the current view and exactly the permanent header and its
country line in the permanent view; in particular the current view
does not contain the permanent block's country line and the permanent
view does not contain the current block's country line (for distinct
values whose lines carry no section marker or keyword). -/
theorem claim_C3 (x y : Str) (hxy : x ≠ y)
    (hx : segCleanB (countryLine x) = true) (hy : segCleanB (countryLine y) = true) :
    addressSections [curHeaderLine, countryLine x, permHeaderLine, countryLine y] =
      ([curHeaderLine, countryLine x], [permHeaderLine, countryLine y])
  ∧ countryLine y ∉
      (addressSections [curHeaderLine, countryLine x, permHeaderLine, countryLine y]).1
  ∧ countryLine x ∉
      (addressSections [curHeaderLine, countryLine x, permHeaderLine, countryLine y]).2 := by
  simp only [segCleanB, Bool.and_eq_true, Bool.not_eq_true'] at hx hy
  obtain ⟨⟨⟨⟨⟨⟨hx1, hx2⟩, hx3⟩, hx4⟩, hx5⟩, hx6⟩, hx7⟩ := hx
  obtain ⟨⟨⟨⟨⟨⟨hy1, hy2⟩, hy3⟩, hy4⟩, hy5⟩, hy6⟩, hy7⟩ := hy
  have e1 : segStep ⟨false, false, [], []⟩ curHeaderLine = ⟨true, false, [curHeaderLine], []⟩ := by
    decide
  have e2 : ∀ C : List Str, segStep ⟨true, false, C, []⟩ (countryLine x) =
      ⟨true, false, C ++ [countryLine x], []⟩ := by
    intro C
    simp [segStep, curStopKws, hx1, hx2, hx3, hx4, hx5, hx6, hx7]
  have hc1 : isSubstrOf (chars "current address") (lineLower permHeaderLine) = false := by
    decide
  have hc2 : isSubstrOf (chars "permanent address") (lineLower permHeaderLine) = true := by
    decide
  have e3 : ∀ (C P : List Str), segStep ⟨true, false, C, P⟩ permHeaderLine =
      ⟨false, true, C, P ++ [permHeaderLine]⟩ := by
    intro C P
    simp [segStep, hc1, hc2]
  have e4 : ∀ (C P : List Str), segStep ⟨false, true, C, P⟩ (countryLine y) =
      ⟨false, true, C, P ++ [countryLine y]⟩ := by
    intro C P
    simp [segStep, permStopKws, hy1, hy2, hy3, hy4, hy5, hy6, hy7]
  have hsec : addressSections [curHeaderLine, countryLine x, permHeaderLine, countryLine y] =
      ([curHeaderLine, countryLine x], [permHeaderLine, countryLine y]) := by
    unfold addressSections
    simp only [List.foldl_cons, List.foldl_nil]
    rw [e1, e2, e3, e4]
    simp
  refine ⟨hsec, ?_, ?_⟩
  · rw [hsec]
    intro hmem
    rcases List.mem_cons.mp hmem with h | h
    · have h2 := congrArg (List.take 2) h
      have e₁ : List.take 2 (countryLine y) = ['C', 'o'] := rfl
      have e₂ : List.take 2 curHeaderLine = ['C', 'u'] := rfl
      rw [e₁, e₂] at h2
      simp at h2
    · rw [List.mem_singleton] at h
      exact hxy (List.append_cancel_left h).symm
  · rw [hsec]
    intro hmem
    rcases List.mem_cons.mp hmem with h | h
    · have h2 := congrArg (List.take 2) h
      have e₁ : List.take 2 (countryLine x) = ['C', 'o'] := rfl
      have e₂ : List.take 2 permHeaderLine = ['P', 'e'] := rfl
      rw [e₁, e₂] at h2
      simp at h2
    · rw [List.mem_singleton] at h
      exact hxy (List.append_cancel_left h)

/-- Witness for claim C3: the scenario with the values NEPAL and
INDIA. -/
theorem claim_C3_witness :
    addressSections [curHeaderLine, countryLine (chars "NEPAL"),
        permHeaderLine, countryLine (chars "INDIA")] =
      ([curHeaderLine, countryLine (chars "NEPAL")],
       [permHeaderLine, countryLine (chars "INDIA")])
  ∧ countryLine (chars "INDIA") ∉
      (addressSections [curHeaderLine, countryLine (chars "NEPAL"),
        permHeaderLine, countryLine (chars "INDIA")]).1
  ∧ countryLine (chars "NEPAL") ∉
      (addressSections [curHeaderLine, countryLine (chars "NEPAL"),
        permHeaderLine, countryLine (chars "INDIA")]).2 :=
  claim_C3 (chars "NEPAL") (chars "INDIA") (by decide) (by decide) (by decide)

lemma recLookup_setk_self (d : Record) (k v : Str) :
    recLookup k (setk d k v) = some v := by
  induction d with
  | nil => simp [setk, recLookup]
  | cons kv t ih =>
    obtain ⟨k₀, v₀⟩ := kv
    by_cases h : k₀ = k
    · simp [setk, h, recLookup]
    · simp [setk, h, recLookup, ih]

lemma recLookup_setk_ne (d : Record) (k k₀ v : Str) (h : k₀ ≠ k) :
    recLookup k (setk d k₀ v) = recLookup k d := by
  induction d with
  | nil => simp [setk, recLookup, h]
  | cons kv t ih =>
    obtain ⟨k₁, v₁⟩ := kv
    by_cases h₁ : k₁ = k₀
    · subst h₁
      simp [setk, recLookup, h, ih]
    · by_cases h₂ : k₁ = k
      · subst h₂
        simp [setk, h₁, recLookup]
      · simp [setk, h₁, recLookup, h₂, ih]

lemma curKey_ne_permKey (f g : Str) : chars "current_" ++ f ≠ chars "permanent_" ++ g := by
  intro h
  have h2 := congrArg (List.take 1) h
  have e₁ : List.take 1 (chars "current_" ++ f) = ['c'] := rfl
  have e₂ : List.take 1 (chars "permanent_" ++ g) = ['p'] := rfl
  rw [e₁, e₂] at h2
  simp at h2

lemma addrFieldValue_some {secText fullText : Str} {rs : List Rule} {v : Str}
    (h : addrFieldValue secText fullText rs = some v) :
    pyStrip v = v ∧ v ≠ [] ∧ v ≠ dash := by
  unfold addrFieldValue at h
  cases hs : extractField secText rs with
  | some w =>
    rw [hs] at h
    injection h with hv
    subst hv
    exact extractField_some hs
  | none =>
    rw [hs] at h
    exact extractField_some h

lemma curLoop_lookup_notin (t : Str) (rb : List (Str × List Rule)) (k : Str)
    (hk : ∀ fr ∈ rb, chars "current_" ++ fr.1 ≠ k) :
    ∀ acc, recLookup k (curLoop t rb acc) = recLookup k acc := by
  induction rb with
  | nil => intro acc; rfl
  | cons fr rest ih =>
    intro acc
    obtain ⟨f, rs⟩ := fr
    have hkf : chars "current_" ++ f ≠ k := hk (f, rs) (List.mem_cons_self _ _)
    have hkr : ∀ fr ∈ rest, chars "current_" ++ fr.1 ≠ k :=
      fun fr hfr => hk fr (List.mem_cons_of_mem _ hfr)
    simp only [curLoop]
    cases hv : addrFieldValue (currentView t) t rs with
    | none => exact ih hkr acc
    | some v =>
      dsimp only
      by_cases hg : v ≠ [] ∧ pyStrip v ≠ [] ∧ pyStrip v ≠ dash
      · rw [if_pos hg]
        rw [ih hkr _]
        exact recLookup_setk_ne acc k _ _ hkf
      · rw [if_neg hg]
        exact ih hkr acc

lemma curLoop_lookup_found (t : Str) (rb : List (Str × List Rule)) (f : Str)
    (rs : List Rule) (v : Str) (hnd : (rb.map Prod.fst).Nodup) (hmem : (f, rs) ∈ rb)
    (hval : addrFieldValue (currentView t) t rs = some v) :
    ∀ acc, recLookup (chars "current_" ++ f) (curLoop t rb acc) = some v := by
  induction rb with
  | nil => cases hmem
  | cons fr rest ih =>
    intro acc
    obtain ⟨g, qs⟩ := fr
    have hndc : g ∉ rest.map Prod.fst ∧ (rest.map Prod.fst).Nodup := by
      rw [List.map_cons] at hnd
      exact List.nodup_cons.mp hnd
    rcases List.mem_cons.mp hmem with heq | hmem'
    · injection heq with hf hq
      subst hf
      subst hq
      simp only [curLoop, hval]
      obtain ⟨hstrip, hv1, hv2⟩ := addrFieldValue_some hval
      rw [if_pos ⟨hv1, hstrip.symm ▸ hv1, hstrip.symm ▸ hv2⟩]
      have hnotin : ∀ fr ∈ rest, chars "current_" ++ fr.1 ≠ chars "current_" ++ f := by
        intro fr hfr h
        have hf1 : fr.1 = f := List.append_cancel_left h
        have hmm : f ∈ rest.map Prod.fst := by
          rw [← hf1]
          exact List.mem_map_of_mem Prod.fst hfr
        exact hndc.1 hmm
      rw [curLoop_lookup_notin t rest _ hnotin _]
      rw [hstrip]
      exact recLookup_setk_self acc _ v
    · simp only [curLoop]
      exact ih hndc.2 hmem' _

lemma permLoop_lookup_notin (t : Str) (rb : List (Str × List Rule)) (k : Str)
    (hk : ∀ fr ∈ rb, chars "permanent_" ++ fr.1 ≠ k) :
    ∀ acc, recLookup k (permLoop t rb acc) = recLookup k acc := by
  induction rb with
  | nil => intro acc; rfl
  | cons fr rest ih =>
    intro acc
    obtain ⟨f, rs⟩ := fr
    have hkf : chars "permanent_" ++ f ≠ k := hk (f, rs) (List.mem_cons_self _ _)
    have hkr : ∀ fr ∈ rest, chars "permanent_" ++ fr.1 ≠ k :=
      fun fr hfr => hk fr (List.mem_cons_of_mem _ hfr)
    simp only [permLoop]
    cases hv : addrFieldValue (permanentView t) t rs with
    | none => exact ih hkr acc
    | some v =>
      dsimp only
      by_cases hg : v ≠ [] ∧ pyStrip v ≠ [] ∧ pyStrip v ≠ dash
      · rw [if_pos hg]
        by_cases hc : permClean f v ≠ [] ∧ permClean f v ≠ dash
        · rw [if_pos hc, ih hkr _]
          exact recLookup_setk_ne acc k _ _ hkf
        · rw [if_neg hc]
          exact ih hkr acc
      · rw [if_neg hg]
        exact ih hkr acc

lemma permLoop_lookup_found (t : Str) (rb : List (Str × List Rule)) (f : Str)
    (rs : List Rule) (v : Str) (hnd : (rb.map Prod.fst).Nodup) (hmem : (f, rs) ∈ rb)
    (hval : addrFieldValue (permanentView t) t rs = some v)
    (hc1 : permClean f v ≠ []) (hc2 : permClean f v ≠ dash) :
    ∀ acc, recLookup (chars "permanent_" ++ f) (permLoop t rb acc) = some (permClean f v) := by
  induction rb with
  | nil => cases hmem
  | cons fr rest ih =>
    intro acc
    obtain ⟨g, qs⟩ := fr
    have hndc : g ∉ rest.map Prod.fst ∧ (rest.map Prod.fst).Nodup := by
      rw [List.map_cons] at hnd
      exact List.nodup_cons.mp hnd
    rcases List.mem_cons.mp hmem with heq | hmem'
    · injection heq with hf hq
      subst hf
      subst hq
      simp only [permLoop, hval]
      obtain ⟨hstrip, hv1, hv2⟩ := addrFieldValue_some hval
      rw [if_pos ⟨hv1, hstrip.symm ▸ hv1, hstrip.symm ▸ hv2⟩]
      rw [if_pos ⟨hc1, hc2⟩]
      have hnotin : ∀ fr ∈ rest, chars "permanent_" ++ fr.1 ≠ chars "permanent_" ++ f := by
        intro fr hfr h
        have hf1 : fr.1 = f := List.append_cancel_left h
        have hmm : f ∈ rest.map Prod.fst := by
          rw [← hf1]
          exact List.mem_map_of_mem Prod.fst hfr
        exact hndc.1 hmm
      rw [permLoop_lookup_notin t rest _ hnotin _]
      exact recLookup_setk_self acc _ _
    · simp only [permLoop]
      exact ih hndc.2 hmem' _

/-- Claim C10: for every current-address or permanent-address
sub-field, when extraction against the section view yields nothing the
same rule list is retried against the full document text, and a value
found only there ends up in the output record under the sub-field's
key — the section scoping is a preference, not a hard bound. -/
theorem claim_C10 (t : Str) (curRB permRB : List (Str × List Rule)) :
    (∀ secText rs v, extractField secText rs = none → extractField t rs = some v →
       addrFieldValue secText t rs = some v)
  ∧ (∀ f rs v, (curRB.map Prod.fst).Nodup → (f, rs) ∈ curRB →
       extractField (currentView t) rs = none → extractField t rs = some v →
       recLookup (chars "current_" ++ f) (extractAddressInfo curRB permRB t) = some v)
  ∧ (∀ f rs v, (permRB.map Prod.fst).Nodup → (f, rs) ∈ permRB →
       extractField (permanentView t) rs = none → extractField t rs = some v →
       permClean f v ≠ [] → permClean f v ≠ dash →
       recLookup (chars "permanent_" ++ f) (extractAddressInfo curRB permRB t) =
         some (permClean f v)) := by
  refine ⟨?_, ?_, ?_⟩
  · intro secText rs v hsec hfull
    unfold addrFieldValue
    rw [hsec, hfull]
  · intro f rs v hnd hmem hsec hfull
    have hval : addrFieldValue (currentView t) t rs = some v := by
      unfold addrFieldValue
      rw [hsec, hfull]
    unfold extractAddressInfo
    rw [permLoop_lookup_notin t permRB _ (fun fr _ => (curKey_ne_permKey f fr.1).symm) _]
    exact curLoop_lookup_found t curRB f rs v hnd hmem hval []
  · intro f rs v hnd hmem hsec hfull hc1 hc2
    have hval : addrFieldValue (permanentView t) t rs = some v := by
      unfold addrFieldValue
      rw [hsec, hfull]
    unfold extractAddressInfo
    exact permLoop_lookup_found t permRB f rs v hnd hmem hval hc1 hc2 _

/-- Witness for claim C10: a text with no current-address section at
all, so the section view is empty; the rule finds the value Nepal only
in the full text, and the record maps the current-country key to it. -/
theorem claim_C10_witness :
    recLookup (chars "current_" ++ chars "country")
      (extractAddressInfo [(chars "country", [wNepalRule])] [] (chars "Country: Nepal")) =
      some (chars "Nepal") :=
  (claim_C10 (chars "Country: Nepal") [(chars "country", [wNepalRule])] []).2.1
    (chars "country") [wNepalRule] (chars "Nepal")
    (by decide) (List.Mem.head _) (by decide) (by decide)
